import Mathlib

/-
  Verification of the inventory-planner service.

  The service is a small Express/pg REST API over five tables
  (products, sales, suppliers, purchase_orders, purchase_order_items).
  The repository holds two evolving copies of the service, src/index.js
  and src/unnamed/part_000.  Express dispatches a request to the first
  handler registered on a route, so where a file registers a route twice
  the first registration is the effective one.

  The embedding below translates the route handlers into pure Lean
  functions over an explicit database state.  SQL numerics and JS
  numbers are modelled as rationals, integer columns as Int, nullable
  columns as Option, and a possible store failure at each statement of
  a multi-statement handler as a Bool-valued oracle indexed by the
  position of the statement in the handler.
-/

namespace Inventory

/-- Row of the products table: id, sku, name, stock, reorder_point,
    image_url (nullable).  Timestamps are irrelevant to every handler
    modelled here and are projected away. -/
structure Product where
  id : Nat
  sku : String
  name : String
  stock : Int
  reorder_point : Int
  image_url : Option String
deriving Repr, DecidableEq

/-- Row of the sales table; sold_at is a DATE, modelled as a day number. -/
structure Sale where
  product_id : Nat
  quantity : Int
  sold_at : Int
deriving Repr, DecidableEq

/-- Row of the purchase_orders table.  product_id and quantity are the
    legacy single-line columns and are nullable; supplier_id and
    expected_date are nullable columns added later. -/
structure PurchaseOrder where
  id : Nat
  product_id : Option Nat
  quantity : Option Int
  supplier_id : Option Nat
  expected_date : Option Int
  status : String
deriving Repr, DecidableEq

/-- Row of the purchase_order_items table. -/
structure POItem where
  purchase_order_id : Nat
  product_id : Nat
  quantity : Int
deriving Repr, DecidableEq

/-- The mutable store consumed by the purchase-order handlers. -/
structure DB where
  products : List Product
  orders : List PurchaseOrder
  items : List POItem
deriving Repr, DecidableEq

/-- Outcomes of a receive attempt: 404 (PO not found), 400/Conflict
    (PO already received), and a store failure during the updates. -/
inductive ReceiveError
  | notFound
  | alreadyReceived
  | storeFailure
deriving Repr, DecidableEq

instance {ε α : Type} [DecidableEq ε] [DecidableEq α] : DecidableEq (Except ε α) :=
  fun x y =>
  match x, y with
  | .ok a, .ok b =>
    decidable_of_iff (a = b) ⟨fun h => by rw [h], fun h => by injection h⟩
  | .error a, .error b =>
    decidable_of_iff (a = b) ⟨fun h => by rw [h], fun h => by injection h⟩
  | .ok _, .error _ => .isFalse (fun hc => by injection hc)
  | .error _, .ok _ => .isFalse (fun hc => by injection hc)

/-- SELECT * FROM purchase_orders WHERE id = $1 (first row). -/
def findOrder (db : DB) (poId : Nat) : Option PurchaseOrder :=
  db.orders.find? fun o => o.id == poId

/-- SELECT product_id, quantity FROM purchase_order_items
    WHERE purchase_order_id = $1. -/
def itemsOf (db : DB) (poId : Nat) : List POItem :=
  db.items.filter fun it => it.purchase_order_id == poId

/-- UPDATE products SET stock = stock + $1 WHERE id = $2. -/
def addStock (ps : List Product) (pid : Nat) (q : Int) : List Product :=
  ps.map fun p => if p.id = pid then { p with stock := p.stock + q } else p

/-- UPDATE purchase_orders SET status = received WHERE id = $1. -/
def markReceived (os : List PurchaseOrder) (poId : Nat) : List PurchaseOrder :=
  os.map fun o => if o.id = poId then { o with status := "received" } else o

/-- The per-item update loop of the transactional receive handler in
    part_000 (step 3).  Statement k of the attempt fails when the oracle
    holds at k; a failure aborts the loop.  Returns the products after
    the loop together with the index of the next statement. -/
def applyItems (fails : Nat → Bool) :
    List Product → List POItem → Nat → Option (List Product × Nat)
  | ps, [], k => some (ps, k)
  | ps, it :: rest, k =>
    if fails k then none
    else applyItems fails (addStock ps it.product_id it.quantity) rest (k + 1)

/-- POST /purchase-orders/:id/receive, part_000 (first registration,
    the effective handler of that file): BEGIN; check existence and
    status; update stock once per purchase_order_items row; set status
    received; COMMIT.  Any thrown error triggers ROLLBACK, so a failing
    attempt returns the original state unchanged. -/
def receiveTx (db : DB) (poId : Nat) (fails : Nat → Bool) :
    DB × Except ReceiveError Unit :=
  match findOrder db poId with
  | none => (db, .error .notFound)
  | some po =>
    if po.status = "received" then (db, .error .alreadyReceived)
    else
      match applyItems fails db.products (itemsOf db poId) 0 with
      | none => (db, .error .storeFailure)
      | some (ps1, k) =>
        if fails k then (db, .error .storeFailure)
        else ({ db with products := ps1, orders := markReceived db.orders poId },
              .ok ())

/-- The stock update of the legacy receive handler, which credits the
    single legacy quantity to the direct product_id of the order.
    A null product_id matches no row.  (In SQL a null quantity would
    null the stock column; no order evaluated below carries one.) -/
def addStockLegacy (ps : List Product) (pid : Option Nat) (q : Option Int) :
    List Product :=
  match pid, q with
  | some pid, some q => addStock ps pid q
  | _, _ => ps

/-- POST /purchase-orders/:id/receive, index.js (first registration,
    the effective handler of that file): look the order up, reject a
    received order, then run two independent autocommitted statements
    with NO transaction: statement 0 credits the stock, statement 1
    flips the status.  A failure of statement 1 leaves the credit of
    statement 0 in place. -/
def receiveLegacy (db : DB) (poId : Nat) (fails : Nat → Bool) :
    DB × Except ReceiveError Unit :=
  match findOrder db poId with
  | none => (db, .error .notFound)
  | some po =>
    if po.status = "received" then (db, .error .alreadyReceived)
    else if fails 0 then (db, .error .storeFailure)
    else
      let db1 := { db with products := addStockLegacy db.products po.product_id po.quantity }
      if fails 1 then (db1, .error .storeFailure)
      else ({ db1 with orders := markReceived db1.orders poId }, .ok ())

/-- The oracle of an attempt during which no statement fails. -/
def noFail : Nat → Bool := fun _ => false

/-- Ids of the products, in table order. -/
def productIds (ps : List Product) : List Nat := ps.map (·.id)

/-- Total stock across the products table. -/
def stockTotal (ps : List Product) : Int := (ps.map (·.stock)).sum

/-- The item loop with no failures, flattened to a fold. -/
def creditItems (ps : List Product) : List POItem → List Product
  | [] => ps
  | it :: rest => creditItems (addStock ps it.product_id it.quantity) rest

lemma applyItems_noFail (its : List POItem) :
    ∀ (ps : List Product) (k : Nat),
      applyItems noFail ps its k = some (creditItems ps its, k + its.length) := by
  induction its with
  | nil => intro ps k; simp [applyItems, creditItems]
  | cons it rest ih =>
    intro ps k
    simp only [applyItems, noFail, Bool.false_eq_true, if_false, creditItems,
      List.length_cons]
    rw [ih]
    have h : k + 1 + rest.length = k + (rest.length + 1) := by omega
    rw [h]

lemma productIds_addStock (ps : List Product) (pid : Nat) (q : Int) :
    productIds (addStock ps pid q) = productIds ps := by
  induction ps with
  | nil => rfl
  | cons p rest ih =>
    simp only [productIds, addStock, List.map_cons] at ih ⊢
    by_cases h : p.id = pid <;> simp [h, ih]

lemma addStock_of_not_mem (ps : List Product) (pid : Nat) (q : Int)
    (h : pid ∉ productIds ps) : addStock ps pid q = ps := by
  induction ps with
  | nil => rfl
  | cons p rest ih =>
    simp only [productIds, List.map_cons, List.mem_cons] at h
    push_neg at h
    simp only [addStock, List.map_cons]
    rw [if_neg (fun hc => h.1 hc.symm)]
    have := ih (by simpa [productIds] using h.2)
    simpa [addStock] using this

lemma addStock_cons (p : Product) (rest : List Product) (pid : Nat) (q : Int) :
    addStock (p :: rest) pid q =
      (if p.id = pid then { p with stock := p.stock + q } else p) :: addStock rest pid q := rfl

lemma stockTotal_cons (p : Product) (ps : List Product) :
    stockTotal (p :: ps) = p.stock + stockTotal ps := by
  simp [stockTotal]

lemma stockTotal_addStock (ps : List Product) (pid : Nat) (q : Int)
    (hmem : pid ∈ productIds ps) (hnd : (productIds ps).Nodup) :
    stockTotal (addStock ps pid q) = stockTotal ps + q := by
  induction ps with
  | nil => simp [productIds] at hmem
  | cons p rest ih =>
    simp only [productIds, List.map_cons, List.mem_cons] at hmem
    simp only [productIds, List.map_cons, List.nodup_cons] at hnd
    by_cases h : p.id = pid
    · have hnot : pid ∉ productIds rest := by
        rw [← h]; exact fun hc => hnd.1 hc
      rw [addStock_cons, if_pos h, stockTotal_cons,
        addStock_of_not_mem rest pid q hnot, stockTotal_cons]
      ring
    · have hmem2 : pid ∈ productIds rest := by
        rcases hmem with h1 | h2
        · exact absurd h1.symm h
        · exact h2
      rw [addStock_cons, if_neg h, stockTotal_cons, stockTotal_cons, ih hmem2 hnd.2]
      ring

lemma stockTotal_creditItems (its : List POItem) :
    ∀ ps : List Product,
      (∀ it ∈ its, it.product_id ∈ productIds ps) →
      (productIds ps).Nodup →
      stockTotal (creditItems ps its) = stockTotal ps + (its.map (·.quantity)).sum := by
  induction its with
  | nil => intro ps _ _; simp [creditItems]
  | cons it rest ih =>
    intro ps hex hnd
    simp only [creditItems, List.map_cons, List.sum_cons]
    have hids := productIds_addStock ps it.product_id it.quantity
    rw [ih (addStock ps it.product_id it.quantity)
          (fun j hj => by rw [hids]; exact hex j (List.mem_cons_of_mem _ hj))
          (by rw [hids]; exact hnd)]
    rw [stockTotal_addStock ps it.product_id it.quantity
          (hex it (List.mem_cons_self _ _)) hnd]
    ring

lemma productIds_creditItems (its : List POItem) :
    ∀ ps : List Product, productIds (creditItems ps its) = productIds ps := by
  induction its with
  | nil => intro ps; rfl
  | cons it rest ih =>
    intro ps
    simp only [creditItems]
    rw [ih, productIds_addStock]

lemma find?_markReceived (os : List PurchaseOrder) (poId : Nat) :
    (markReceived os poId).find? (fun o => o.id == poId) =
      (os.find? (fun o => o.id == poId)).map
        (fun o => { o with status := "received" }) := by
  induction os with
  | nil => rfl
  | cons o rest ih =>
    by_cases h : o.id = poId
    · simp [markReceived, List.find?, h]
    · simp only [markReceived, List.map_cons, if_neg h]
      rw [List.find?_cons_of_neg, List.find?_cons_of_neg]
      · simpa [markReceived] using ih
      · simpa using h
      · simpa using h

/-- The transactional receive never commits a partial attempt: whenever
    the outcome is an error, the state is returned exactly as it was. -/
theorem receiveTx_rollback (db : DB) (poId : Nat) (fails : Nat → Bool)
    (e : ReceiveError) (h : (receiveTx db poId fails).2 = .error e) :
    (receiveTx db poId fails).1 = db := by
  unfold receiveTx at *
  cases hfind : findOrder db poId with
  | none => simp [hfind]
  | some po =>
    by_cases hst : po.status = "received"
    · simp [hfind, hst]
    · cases happ : applyItems fails db.products (itemsOf db poId) 0 with
      | none => simp [hfind, hst, happ]
      | some pr =>
        by_cases hk : fails pr.2
        · simp [hfind, hst, happ, hk]
        · simp only [hfind, hst, happ, hk] at h
          simp at h

lemma receiveTx_success (db : DB) (poId : Nat) (po : PurchaseOrder)
    (hfind : findOrder db poId = some po) (hst : po.status ≠ "received") :
    receiveTx db poId noFail =
      ({ db with products := creditItems db.products (itemsOf db poId),
                 orders := markReceived db.orders poId }, .ok ()) := by
  unfold receiveTx
  rw [hfind]
  simp only [if_neg hst]
  rw [applyItems_noFail]
  simp [noFail]

/-- Claim C2: under the effective (transactional) receive handler, a
    missing order yields NotFound and an already received order yields
    Conflict, each leaving the whole store untouched; receiving an
    existing non-received order succeeds, raises total stock by exactly
    the sum of the line-item quantities of that order (its total
    quantity in the multi-line schema), marks the order received, and a
    second receive of the same order yields Conflict and changes
    nothing.  Hypotheses: product ids are unique and each line item
    references an existing product. -/
theorem receiveTx_notFound_conflict_once (db : DB) (poId : Nat)
    (hnd : (productIds db.products).Nodup)
    (hex : ∀ it ∈ itemsOf db poId, it.product_id ∈ productIds db.products) :
    (findOrder db poId = none → receiveTx db poId noFail = (db, .error .notFound)) ∧
    (∀ po, findOrder db poId = some po → po.status = "received" →
        receiveTx db poId noFail = (db, .error .alreadyReceived)) ∧
    (∀ po, findOrder db poId = some po → po.status ≠ "received" →
        (receiveTx db poId noFail).2 = .ok () ∧
        stockTotal (receiveTx db poId noFail).1.products =
          stockTotal db.products + ((itemsOf db poId).map (·.quantity)).sum ∧
        (∀ po2, findOrder (receiveTx db poId noFail).1 poId = some po2 →
            po2.status = "received") ∧
        receiveTx (receiveTx db poId noFail).1 poId noFail =
          ((receiveTx db poId noFail).1, .error .alreadyReceived)) := by
  refine ⟨?_, ?_, ?_⟩
  · intro h
    unfold receiveTx
    rw [h]
  · intro po hfind hst
    unfold receiveTx
    rw [hfind]
    simp [hst]
  · intro po hfind hst
    have hsucc := receiveTx_success db poId po hfind hst
    rw [hsucc]
    have hfind2 :
        findOrder
          ({ db with products := creditItems db.products (itemsOf db poId),
                     orders := markReceived db.orders poId }) poId =
          some { po with status := "received" } := by
      unfold findOrder at hfind ⊢
      simp only
      rw [find?_markReceived, hfind]
      rfl
    refine ⟨rfl, ?_, ?_, ?_⟩
    · exact stockTotal_creditItems (itemsOf db poId) db.products hex hnd
    · intro po2 h2
      rw [hfind2] at h2
      cases h2
      rfl
    · unfold receiveTx
      rw [hfind2]
      simp

/-- Concrete store for the C2 witness: two products, one open order
    with two line items (5 units of product 1, 3 of product 2). -/
def dbC2 : DB :=
  ⟨[⟨1, "A", "prodA", 10, 0, none⟩, ⟨2, "B", "prodB", 7, 0, none⟩],
   [⟨1, none, none, some 9, none, "open"⟩],
   [⟨1, 1, 5⟩, ⟨1, 2, 3⟩]⟩

/-- Witness for C2 at the concrete store dbC2 and order 1. -/
theorem receiveTx_notFound_conflict_once_witness :
    ((productIds dbC2.products).Nodup ∧
      ∀ it ∈ itemsOf dbC2 1, it.product_id ∈ productIds dbC2.products) ∧
    ((findOrder dbC2 1 = none → receiveTx dbC2 1 noFail = (dbC2, .error .notFound)) ∧
     (∀ po, findOrder dbC2 1 = some po → po.status = "received" →
         receiveTx dbC2 1 noFail = (dbC2, .error .alreadyReceived)) ∧
     (∀ po, findOrder dbC2 1 = some po → po.status ≠ "received" →
         (receiveTx dbC2 1 noFail).2 = .ok () ∧
         stockTotal (receiveTx dbC2 1 noFail).1.products =
           stockTotal dbC2.products + ((itemsOf dbC2 1).map (·.quantity)).sum ∧
         (∀ po2, findOrder (receiveTx dbC2 1 noFail).1 1 = some po2 →
             po2.status = "received") ∧
         receiveTx (receiveTx dbC2 1 noFail).1 1 noFail =
           ((receiveTx dbC2 1 noFail).1, .error .alreadyReceived))) :=
  ⟨⟨by decide, by decide⟩,
   receiveTx_notFound_conflict_once dbC2 1 (by decide) (by decide)⟩

/-- Claim C1: the effective receive handler of index.js runs its two
    updates without a transaction.  On the state with product 1 at
    stock 10 and open order 1 (product 1, quantity 5), an attempt whose
    second statement (the status flip) fails reports a store failure
    yet leaves stock 15 with the order still open: the credit of the
    attempt is not rolled back, refuting all-or-nothing application. -/
theorem receive_not_atomic :
    receiveLegacy
      ⟨[⟨1, "A", "prodA", 10, 0, none⟩],
       [⟨1, some 1, some 5, none, none, "open"⟩], []⟩ 1 (fun k => k == 1) =
    (⟨[⟨1, "A", "prodA", 15, 0, none⟩],
      [⟨1, some 1, some 5, none, none, "open"⟩], []⟩,
     .error .storeFailure) := by decide

/-- Claim C3: the effective receive handler of part_000 loops only over
    purchase_order_items and never falls back to the legacy
    product_id/quantity columns.  A legacy order (quantity 5 on product
    1) with no item rows is marked received while product 1 keeps
    stock 10: the legacy quantity is never credited. -/
theorem receiveTx_ignores_legacy_quantity :
    receiveTx
      ⟨[⟨1, "A", "prodA", 10, 0, none⟩],
       [⟨1, some 1, some 5, none, none, "open"⟩], []⟩ 1 noFail =
    (⟨[⟨1, "A", "prodA", 10, 0, none⟩],
      [⟨1, some 1, some 5, none, none, "received"⟩], []⟩,
     .ok ()) := by decide

/-- The SQL aggregate of GET /inventory/velocity (identical in both
    copies): COALESCE(SUM(CASE WHEN s.sold_at >= NOW() - INTERVAL N
    days THEN s.quantity END), 0) over the sales joined to product pid.
    The filter carries only the lower bound, exactly as in the query. -/
def windowSum (sales : List Sale) (pid : Nat) (now : Int) (N : Nat) : Int :=
  ((sales.filter fun s => decide (s.product_id = pid ∧ now - N ≤ s.sold_at)).map
    (·.quantity)).sum

/-- daily_velocity_N of GET /inventory/velocity: the window sum divided
    by N.0.  A pure function of the stored sales. -/
def dailyVelocity (sales : List Sale) (pid : Nat) (now : Int) (N : Nat) : ℚ :=
  (windowSum sales pid now N : ℚ) / (N : ℚ)

/-- Claim C4: for each window N of the fixed set 7/14/30/90, provided
    every stored sale is dated no later than now (the record-sale
    endpoint always stamps the current date), daily_velocity_N equals
    the sum of the quantities of the sales of that product dated within
    the closed window of the last N days, divided by N, and it is 0
    when the product has no sale in that window.  The computation is a
    pure function of the stored sales. -/
theorem velocity_window (sales : List Sale) (pid : Nat) (now : Int) (N : Nat)
    (hN : N = 7 ∨ N = 14 ∨ N = 30 ∨ N = 90)
    (hpast : ∀ s ∈ sales, s.sold_at ≤ now) :
    dailyVelocity sales pid now N =
      (((((sales.filter fun s =>
          decide (s.product_id = pid ∧ now - N ≤ s.sold_at ∧ s.sold_at ≤ now)).map
        (·.quantity)).sum : Int) : ℚ)) / (N : ℚ) ∧
    ((∀ s ∈ sales, ¬(s.product_id = pid ∧ now - N ≤ s.sold_at ∧ s.sold_at ≤ now)) →
      dailyVelocity sales pid now N = 0) := by
  clear hN
  have hfilter :
      (sales.filter fun s => decide (s.product_id = pid ∧ now - N ≤ s.sold_at)) =
      (sales.filter fun s =>
        decide (s.product_id = pid ∧ now - N ≤ s.sold_at ∧ s.sold_at ≤ now)) := by
    apply List.filter_congr
    intro s hs
    have hle := hpast s hs
    by_cases h1 : s.product_id = pid
    · by_cases h2 : now - N ≤ s.sold_at
      · simp [h1, h2, hle]
      · simp [h1, h2]
    · simp [h1]
  constructor
  · unfold dailyVelocity windowSum
    rw [hfilter]
  · intro hnone
    have hnil :
        (sales.filter fun s => decide (s.product_id = pid ∧ now - N ≤ s.sold_at)) = [] := by
      rw [hfilter]
      rw [List.filter_eq_nil_iff]
      intro s hs
      simpa using hnone s hs
    unfold dailyVelocity windowSum
    rw [hnil]
    simp

/-- Witness for C4: one product with sales inside and outside the
    30-day window, and a second product with no sales in the window. -/
theorem velocity_window_witness :
    ((30 : Nat) = 7 ∨ (30 : Nat) = 14 ∨ (30 : Nat) = 30 ∨ (30 : Nat) = 90) ∧
    (∀ s ∈ [Sale.mk 1 4 80, Sale.mk 1 2 10, Sale.mk 2 9 99], s.sold_at ≤ (100 : Int)) ∧
    (dailyVelocity [Sale.mk 1 4 80, Sale.mk 1 2 10, Sale.mk 2 9 99] 1 100 30 =
      ((((([Sale.mk 1 4 80, Sale.mk 1 2 10, Sale.mk 2 9 99].filter fun s =>
          decide (s.product_id = 1 ∧ (100 : Int) - (30 : Nat) ≤ s.sold_at ∧
            s.sold_at ≤ (100 : Int))).map (·.quantity)).sum : Int) : ℚ)) / ((30 : Nat) : ℚ) ∧
     ((∀ s ∈ [Sale.mk 1 4 80, Sale.mk 1 2 10, Sale.mk 2 9 99],
          ¬(s.product_id = 1 ∧ (100 : Int) - (30 : Nat) ≤ s.sold_at ∧
            s.sold_at ≤ (100 : Int))) →
        dailyVelocity [Sale.mk 1 4 80, Sale.mk 1 2 10, Sale.mk 2 9 99] 1 100 30 = 0)) :=
  ⟨by decide, by decide,
   velocity_window [Sale.mk 1 4 80, Sale.mk 1 2 10, Sale.mk 2 9 99] 1 100 30
     (by decide) (by decide)⟩

/-- The row the reorder-status SQL of part_000 hands to the JS mapper:
    stock, the 30-day velocity (aliased daily_velocity in the SELECT),
    and the joined supplier lead_time_days (null without a supplier). -/
structure StatusRow where
  stock : ℚ
  daily_velocity : ℚ
  lead_time_days : Option ℚ
deriving Repr, DecidableEq

/-- JS property access on the row object, by column name: names the
    SELECT does not produce yield undefined (none). -/
def StatusRow.get (r : StatusRow) : String → Option ℚ
  | "stock" => some r.stock
  | "daily_velocity" => some r.daily_velocity
  | "lead_time_days" => r.lead_time_days
  | _ => none

/-- The JS mapper of GET /inventory/reorder-status in part_000, which
    reads p.daily_velocity_30 although the SELECT aliases the column
    daily_velocity.  In JS, undefined > 0 is false, so days_left is
    null; a null lead_time_days coerces to 0 in a JS comparison.
    Returns (days_of_stock, status). -/
def reorderStatusP0 (r : StatusRow) : Option ℚ × String :=
  let days_left : Option ℚ :=
    match r.get "daily_velocity_30" with
    | some v => if 0 < v then some (r.stock / v) else none
    | none => none
  let status : String :=
    match days_left, r.lead_time_days with
    | some d, some L =>
      if d ≤ L then "ORDER NOW" else if d ≤ L * (3 / 2) then "ORDER SOON" else "OK"
    | some d, none =>
      if d ≤ 0 then "ORDER NOW" else if d ≤ 0 then "ORDER SOON" else "OK"
    | none, _ => "OK"
  (days_left, status)

/-- Claim C5: the effective reorder-status handler of part_000 reads a
    column name its own SELECT never produces, so for EVERY row —
    whatever the stock, velocity and lead time — it reports
    days_of_stock null and status OK; the classification the claim
    describes never happens. -/
theorem reorder_status_always_ok (r : StatusRow) :
    reorderStatusP0 r = (none, "OK") := rfl

/-- The reorder-status mapper of index.js, whose field names do match
    its SELECT; its lead time is the fixed constant 30. -/
def reorderStatusIdx (stock daily_velocity_30 : ℚ) : Option ℚ × String :=
  let days_left : Option ℚ :=
    if 0 < daily_velocity_30 then some (stock / daily_velocity_30) else none
  let status : String :=
    match days_left with
    | some d =>
      if d ≤ 30 then "ORDER NOW" else if d ≤ 30 * (3 / 2) then "ORDER SOON" else "OK"
    | none => "OK"
  (days_left, status)

/-- The index.js copy of the handler does classify: the two worked
    examples of the spec (stock 60 at velocity 3 gives 20 days, ORDER
    NOW; stock 200 at velocity 2 gives 100 days, OK), and the
    zero-velocity case gives null and OK. -/
theorem reorder_status_idx_examples :
    reorderStatusIdx 60 3 = (some 20, "ORDER NOW") ∧
    reorderStatusIdx 200 2 = (some 100, "OK") ∧
    reorderStatusIdx 100 0 = (none, "OK") := by
  refine ⟨?_, ?_, ?_⟩ <;> norm_num [reorderStatusIdx]

/-- Row of the SQL behind the two target-coverage endpoints of
    part_000: product id, stock, and the 30-day daily velocity. -/
structure SuggestRow where
  id : Nat
  stock : Int
  daily_velocity : ℚ
deriving Repr, DecidableEq

/-- GET /purchase-orders/suggestions (part_000, target 90 days): maps
    each row to null when velocity is not positive, otherwise computes
    needed_stock = ceil(velocity * 90) and order_qty = max(needed_stock
    - stock, 0), nulls a zero order_qty, and filters the nulls out.
    Entries are (product_id, suggested_order_quantity). -/
def suggestionsP0 (rows : List SuggestRow) : List (Nat × Int) :=
  rows.filterMap fun p =>
    if p.daily_velocity ≤ 0 then none
    else
      let needed_stock : Int := ⌈p.daily_velocity * 90⌉
      let order_qty : Int := max (needed_stock - p.stock) 0
      if order_qty = 0 then none
      else some (p.id, order_qty)

/-- GET /purchase-orders/recommendations (part_000, target 60 days):
    maps EVERY row to (product_id, max(ceil(velocity * 60 - stock), 0))
    with no filtering of any kind. -/
def recommendationsP0 (rows : List SuggestRow) : List (Nat × Int) :=
  rows.map fun p =>
    let neededStock : ℚ := p.daily_velocity * 60
    (p.id, max ⌈neededStock - (p.stock : ℚ)⌉ 0)

lemma ceil_eq_neg_floor (x : ℚ) : (⌈x⌉ : Int) = -⌊-x⌋ := by
  rw [Int.floor_neg, neg_neg]

/-- Counterexample to C6: a product with zero velocity (hence zero
    suggested quantity) is returned by the recommendations endpoint as
    a zero-quantity entry instead of being omitted. -/
theorem recommendations_include_zero :
    recommendationsP0 [⟨1, 5, 0⟩] = [(1, 0)] := by
  simp only [recommendationsP0, List.map_cons, List.map_nil]
  rw [ceil_eq_neg_floor]
  norm_num

/-- Claim C6 as amended: both target-coverage endpoints compute the
    quantity max(ceil(velocity * target_days) - stock, 0) (for the
    recommendations endpoint the ceiling of the difference equals this
    because stock is an integer); the suggestions endpoint (target 90)
    omits rows with velocity at most 0 or quantity 0, while the
    recommendations endpoint (target 60) returns one entry per product,
    keeping zero-velocity and zero-quantity entries. -/
theorem target_coverage_suggestions (rows : List SuggestRow) :
    suggestionsP0 rows =
      (rows.filter fun p =>
          decide (0 < p.daily_velocity ∧ max (⌈p.daily_velocity * 90⌉ - p.stock) 0 ≠ 0)).map
        (fun p => (p.id, max (⌈p.daily_velocity * 90⌉ - p.stock) 0)) ∧
    recommendationsP0 rows =
      rows.map (fun p => (p.id, max (⌈p.daily_velocity * 60⌉ - p.stock) 0)) := by
  constructor
  · induction rows with
    | nil => rfl
    | cons p rest ih =>
      simp only [suggestionsP0, List.filterMap_cons] at ih ⊢
      by_cases h1 : p.daily_velocity ≤ 0
      · have h1x : ¬(0 < p.daily_velocity) := not_lt.mpr h1
        rw [if_pos h1]
        rw [List.filter_cons_of_neg (by simp [h1x])]
        exact ih
      · have h1x : 0 < p.daily_velocity := lt_of_not_le h1
        rw [if_neg h1]
        by_cases h2 : max (⌈p.daily_velocity * 90⌉ - p.stock) 0 = 0
        · simp only [h2, if_pos rfl]
          rw [List.filter_cons_of_neg (by simp [h2])]
          exact ih
        · simp only [if_neg h2]
          rw [List.filter_cons_of_pos (by simp [h1x, h2]), List.map_cons]
          rw [ih]
  · unfold recommendationsP0
    apply List.map_congr_left
    intro p _
    have hceil : ⌈p.daily_velocity * 60 - (p.stock : ℚ)⌉ = ⌈p.daily_velocity * 60⌉ - p.stock :=
      Int.ceil_sub_int (p.daily_velocity * 60) p.stock
    simp only [hceil]

/-- The 30-day window sum and velocity as computed by the SQL of
    POST /purchase-orders/suggest (both copies): identical to the
    velocity aggregate of GET /inventory/velocity at N = 30. -/
def suggestQuantity (sales : List Sale) (pid : Nat) (now : Int) (stock : Int)
    (lead_time_days buffer_days : ℚ) : Int :=
  let daily_velocity := dailyVelocity sales pid now 30
  max ⌈(lead_time_days + buffer_days) * daily_velocity - (stock : ℚ)⌉ 0

/-- Claim C7: the lead-time suggestion returns
    max(ceil((lead_time_days + buffer_days) * daily_velocity - stock), 0)
    (the handler defaults the parameters to 30 and 14 when absent from
    the body), and at the worked example of the spec — defaults 30/14,
    60 units sold in the 30-day window (velocity 2 a day), stock 50 —
    it returns ceil(44 * 2 - 50) = 38. -/
theorem lead_time_suggestion :
    (∀ (sales : List Sale) (pid : Nat) (now stock : Int) (lead buffer : ℚ),
        suggestQuantity sales pid now stock lead buffer =
          max ⌈(lead + buffer) * ((windowSum sales pid now 30 : ℚ) / (30 : ℚ)) -
                (stock : ℚ)⌉ 0) ∧
    suggestQuantity [Sale.mk 1 60 95] 1 100 50 30 14 = 38 := by
  constructor
  · intro sales pid now stock lead buffer
    rfl
  · have hw : windowSum [Sale.mk 1 60 95] 1 100 30 = 60 := by decide
    simp only [suggestQuantity, dailyVelocity, hw]
    rw [ceil_eq_neg_floor]
    norm_num

/-- A JS evaluation error: referencing an unbound name throws. -/
inductive JsError
  | referenceError (name : String)
deriving Repr, DecidableEq

/-- The names bound at the top of the part_000 POST /purchase-orders
    handler by const (destructuring) from req.body: supplier_id and
    items.  Destructuring binds the names even when the body lacks the
    fields. -/
def createScopeP0 : List String := ["supplier_id", "items"]

/-- Evaluating a bare name against the bound names of the scope: a
    ReferenceError when the name is unbound. -/
def refName (scope : List String) (name : String) : Except JsError Unit :=
  if name ∈ scope then .ok () else .error (.referenceError name)

/-- POST /purchase-orders (part_000): the INSERT parameter array is
    [product_id, quantity, expected_date], three names the handler
    never bound, so evaluating the first of them throws before the
    INSERT can run; the store is never touched. -/
def createPurchaseOrderP0 (db : DB) : Except JsError DB :=
  (refName createScopeP0 "product_id").bind fun _ =>
  (refName createScopeP0 "quantity").bind fun _ =>
  (refName createScopeP0 "expected_date").bind fun _ =>
  .ok db

/-- POST /purchase-orders/from-dashboard (part_000): inside a
    transaction, INSERT INTO purchase_orders (supplier_id, status)
    VALUES ($1, open) and then one purchase_order_items row per
    submitted (product_id, quantity) item. -/
def fromDashboard (db : DB) (nextPoId : Nat) (supplier_id : Option Nat)
    (items : List (Nat × Int)) : DB × Nat :=
  ({ db with
      orders := db.orders ++ [⟨nextPoId, none, none, supplier_id, none, "open"⟩],
      items := db.items ++ items.map fun it => ⟨nextPoId, it.1, it.2⟩ },
   nextPoId)

/-- POST /purchase-orders (index.js): INSERT with the legacy columns
    product_id, quantity, expected_date and the literal status open. -/
def createPurchaseOrderIdx (db : DB) (nextPoId : Nat) (product_id : Option Nat)
    (quantity : Option Int) (expected_date : Option Int) : DB × PurchaseOrder :=
  let po : PurchaseOrder := ⟨nextPoId, product_id, quantity, none, expected_date, "open"⟩
  ({ db with orders := db.orders ++ [po] }, po)

/-- Claim C8: in part_000 every request to POST /purchase-orders — in
    particular the single-product shape of the claim — throws a
    ReferenceError on the unbound name product_id and creates no order,
    because the handler destructures supplier_id and items but builds
    the INSERT parameters from product_id, quantity and expected_date.
    The multi-line shape succeeds only through from-dashboard (order in
    status open, lines persisted), and the index.js single-product
    create yields status open. -/
theorem create_po_scope_bug (db : DB) (nextPoId : Nat) :
    createPurchaseOrderP0 db = .error (.referenceError "product_id") ∧
    (∀ (supplier_id : Option Nat) (items : List (Nat × Int)),
        (fromDashboard db nextPoId supplier_id items).1.orders =
          db.orders ++ [⟨nextPoId, none, none, supplier_id, none, "open"⟩] ∧
        (fromDashboard db nextPoId supplier_id items).1.items =
          db.items ++ items.map fun it => ⟨nextPoId, it.1, it.2⟩) ∧
    (∀ (product_id : Option Nat) (quantity : Option Int) (expected_date : Option Int),
        ((createPurchaseOrderIdx db nextPoId product_id quantity expected_date).2).status =
          "open") :=
  ⟨rfl, fun _ _ => ⟨rfl, rfl⟩, fun _ _ _ => rfl⟩

/-- A parsed row of the CSV accepted by POST /inventory/import. -/
structure CsvRow where
  sku : String
  stock : Int
  reorder_point : Int
deriving Repr, DecidableEq

/-- UPDATE products SET stock = $1, reorder_point = $2 WHERE sku = $3. -/
def importRow (ps : List Product) (r : CsvRow) : List Product :=
  ps.map fun p =>
    if p.sku = r.sku then { p with stock := r.stock, reorder_point := r.reorder_point }
    else p

/-- Outcome of a bulk batch: a store failure thrown by one of its
    statements. -/
inductive BulkError
  | storeFailure
deriving Repr, DecidableEq

/-- The row loop of POST /inventory/import: statement k of the batch
    fails when the oracle holds at k; every UPDATE autocommits on its
    own, so an abort keeps each row already applied.  Returns the
    products and whether the loop completed. -/
def runImport (fails : Nat → Bool) :
    List Product → List CsvRow → Nat → List Product × Bool
  | ps, [], _ => (ps, true)
  | ps, r :: rows, k =>
    if fails k then (ps, false)
    else runImport fails (importRow ps r) rows (k + 1)

/-- POST /inventory/import (part_000): the try block runs one
    autocommitted UPDATE per parsed row with no transaction; a throwing
    UPDATE lands in the catch, which responds 500 with the applied rows
    left in place; on completion the response carries updated:
    results.length — the count of parsed rows, matched or not. -/
def importCsv (fails : Nat → Bool) (ps : List Product) (rows : List CsvRow) :
    List Product × Except BulkError Nat :=
  let run := runImport fails ps rows 0
  if run.2 then (run.1, .ok rows.length)
  else (run.1, .error .storeFailure)

/-- An element of the updates array of PATCH /products/images/bulk. -/
structure ImageUpdate where
  product_id : Nat
  image_url : Option String
deriving Repr, DecidableEq

/-- UPDATE products SET image_url = $1 WHERE id = $2 for one element
    of the updates array. -/
def imageRow (ps : List Product) (u : ImageUpdate) : List Product :=
  ps.map fun p =>
    if p.id = u.product_id then { p with image_url := u.image_url } else p

/-- PATCH /products/images/bulk (both copies): one UPDATE ... RETURNING
    per element, each autocommitted, no transaction; a returned row is
    pushed onto results only when the UPDATE matched a product (n
    carries the running length of results); statement k of the batch
    fails when the oracle holds at k, aborting the loop with every row
    already applied left in place; on completion the response reports
    updated: results.length. -/
def bulkImages (fails : Nat → Bool) :
    List Product → List ImageUpdate → Nat → Nat → List Product × Except BulkError Nat
  | ps, [], _, n => (ps, .ok n)
  | ps, u :: us, k, n =>
    if fails k then (ps, .error .storeFailure)
    else
      bulkImages fails (imageRow ps u) us (k + 1)
        (n + if ps.any fun p => p.id == u.product_id then 1 else 0)

lemma any_id_imageRow (ps : List Product) (u : ImageUpdate) (x : Nat) :
    ((imageRow ps u).any fun p => p.id == x) = (ps.any fun p => p.id == x) := by
  induction ps with
  | nil => rfl
  | cons p rest ih =>
    simp only [imageRow, List.map_cons, List.any_cons] at ih ⊢
    by_cases h : p.id = u.product_id <;> simp [h, ih]

lemma runImport_noFail (rows : List CsvRow) :
    ∀ (ps : List Product) (k : Nat),
      runImport noFail ps rows k = (rows.foldl importRow ps, true) := by
  induction rows with
  | nil => intro ps k; rfl
  | cons r rows ih =>
    intro ps k
    simp only [runImport, noFail, Bool.false_eq_true, if_false, List.foldl_cons]
    exact ih (importRow ps r) (k + 1)

lemma runImport_prefix_fail (rows1 : List CsvRow) :
    ∀ (ps : List Product) (k : Nat) (r : CsvRow) (rows2 : List CsvRow) (f : Nat → Bool),
      (∀ i ∈ List.range rows1.length, f (k + i) = false) →
      f (k + rows1.length) = true →
      runImport f ps (rows1 ++ r :: rows2) k = (rows1.foldl importRow ps, false) := by
  induction rows1 with
  | nil =>
    intro ps k r rows2 f _ h2
    have hk : f k = true := by simpa using h2
    simp [runImport, hk]
  | cons r1 rest ih =>
    intro ps k r rows2 f h1 h2
    have hk : f k = false := by simpa using h1 0 (by simp)
    simp only [List.cons_append, runImport, hk, Bool.false_eq_true, if_false,
      List.foldl_cons]
    apply ih (importRow ps r1) (k + 1) r rows2 f
    · intro i hi
      have harg : k + 1 + i = k + (i + 1) := by omega
      rw [harg]
      exact h1 (i + 1) (by simp only [List.mem_range, List.length_cons] at hi ⊢; omega)
    · have harg : k + 1 + rest.length = k + (rest.length + 1) := by omega
      rw [harg]
      simpa using h2

lemma bulkImages_noFail (us : List ImageUpdate) :
    ∀ (ps : List Product) (k n : Nat),
      bulkImages noFail ps us k n =
        (us.foldl imageRow ps,
         .ok (n + (us.filter fun v => ps.any fun p => p.id == v.product_id).length)) := by
  induction us with
  | nil => intro ps k n; simp [bulkImages]
  | cons u us ih =>
    intro ps k n
    simp only [bulkImages, noFail, Bool.false_eq_true, if_false, List.foldl_cons]
    rw [ih (imageRow ps u) (k + 1)]
    have hpred : ∀ v ∈ us,
        ((imageRow ps u).any fun p => p.id == v.product_id) =
          (ps.any fun p => p.id == v.product_id) :=
      fun v _ => any_id_imageRow ps u v.product_id
    rw [List.filter_congr hpred]
    have hcount :
        n + (if (ps.any fun p => p.id == u.product_id) = true then 1 else 0) +
            (us.filter fun v => ps.any fun p => p.id == v.product_id).length =
          n + ((u :: us).filter fun v => ps.any fun p => p.id == v.product_id).length := by
      simp only [List.filter_cons]
      by_cases h : (ps.any fun p => p.id == u.product_id) = true
      · simp only [h, if_true, List.length_cons]
        omega
      · simp only [h, Bool.false_eq_true, if_false]
        omega
    rw [hcount]

lemma bulkImages_prefix_fail (us1 : List ImageUpdate) :
    ∀ (ps : List Product) (k n : Nat) (u : ImageUpdate) (us2 : List ImageUpdate)
      (g : Nat → Bool),
      (∀ i ∈ List.range us1.length, g (k + i) = false) →
      g (k + us1.length) = true →
      bulkImages g ps (us1 ++ u :: us2) k n =
        (us1.foldl imageRow ps, .error .storeFailure) := by
  induction us1 with
  | nil =>
    intro ps k n u us2 g _ h2
    have hk : g k = true := by simpa using h2
    simp [bulkImages, hk]
  | cons u1 rest ih =>
    intro ps k n u us2 g h1 h2
    have hk : g k = false := by simpa using h1 0 (by simp)
    simp only [List.cons_append, bulkImages, hk, Bool.false_eq_true, if_false,
      List.foldl_cons]
    apply ih (imageRow ps u1) (k + 1) _ u us2 g
    · intro i hi
      have harg : k + 1 + i = k + (i + 1) := by omega
      rw [harg]
      exact h1 (i + 1) (by simp only [List.mem_range, List.length_cons] at hi ⊢; omega)
    · have harg : k + 1 + rest.length = k + (rest.length + 1) := by omega
      rw [harg]
      simpa using h2

/-- Counterexample to C9: importing a single row whose sku matches no
    product applies zero rows yet responds updated = 1 — the count of
    parsed rows, not of successfully applied rows. -/
theorem import_reports_parsed_count :
    importCsv noFail [⟨1, "A", "prodA", 10, 0, none⟩] [⟨"B", 5, 0⟩] =
      ([⟨1, "A", "prodA", 10, 0, none⟩], .ok 1) := by decide

/-- Claim C9 as amended: each row of a bulk operation is applied by its
    own autocommitted statement, independently of the rest.  When the
    statement after the rows of a prefix throws (the prefix itself
    failure-free), the batch aborts leaving exactly the already applied
    prefix in place — nothing is undone — for the CSV import and the
    bulk image update alike.  A completed bulk image update reports the
    count of rows that matched a product, while a completed CSV import
    reports the count of parsed rows, which can exceed the count
    actually applied. -/
theorem bulk_per_row (ps : List Product)
    (rows rows1 rows2 : List CsvRow) (r : CsvRow)
    (us us1 us2 : List ImageUpdate) (u : ImageUpdate) (f g : Nat → Bool)
    (hf1 : ∀ i ∈ List.range rows1.length, f i = false)
    (hf2 : f rows1.length = true)
    (hg1 : ∀ i ∈ List.range us1.length, g i = false)
    (hg2 : g us1.length = true) :
    importCsv noFail ps rows = (rows.foldl importRow ps, .ok rows.length) ∧
    bulkImages noFail ps us 0 0 =
      (us.foldl imageRow ps,
       .ok (us.filter fun v => ps.any fun p => p.id == v.product_id).length) ∧
    importCsv f ps (rows1 ++ r :: rows2) =
      (rows1.foldl importRow ps, .error .storeFailure) ∧
    bulkImages g ps (us1 ++ u :: us2) 0 0 =
      (us1.foldl imageRow ps, .error .storeFailure) := by
  refine ⟨?_, ?_, ?_, ?_⟩
  · simp only [importCsv, runImport_noFail]
    simp
  · rw [bulkImages_noFail]
    simp
  · simp only [importCsv,
      runImport_prefix_fail rows1 ps 0 r rows2 f (by simpa using hf1) (by simpa using hf2)]
    simp
  · exact bulkImages_prefix_fail us1 ps 0 0 u us2 g (by simpa using hg1)
      (by simpa using hg2)

/-- Concrete store for the C9 witness. -/
def psC9 : List Product :=
  [⟨1, "A", "prodA", 10, 0, none⟩, ⟨2, "B", "prodB", 7, 0, none⟩]

/-- Witness for C9 at concrete batches: a two-row import and a two-row
    image update run to completion, and batches whose second statement
    throws abort with the first row still applied. -/
theorem bulk_per_row_witness :
    ((∀ i ∈ List.range [CsvRow.mk "A" 3 1].length, (fun k => k == 1) i = false) ∧
     ((fun k => k == 1) [CsvRow.mk "A" 3 1].length = true) ∧
     (∀ i ∈ List.range [ImageUpdate.mk 1 (some "u")].length,
        (fun k => k == 1) i = false) ∧
     ((fun k => k == 1) [ImageUpdate.mk 1 (some "u")].length = true)) ∧
    (importCsv noFail psC9 [CsvRow.mk "A" 3 1, CsvRow.mk "Z" 9 9] =
      ([CsvRow.mk "A" 3 1, CsvRow.mk "Z" 9 9].foldl importRow psC9,
       .ok [CsvRow.mk "A" 3 1, CsvRow.mk "Z" 9 9].length) ∧
     bulkImages noFail psC9 [ImageUpdate.mk 1 (some "u"), ImageUpdate.mk 9 none] 0 0 =
      ([ImageUpdate.mk 1 (some "u"), ImageUpdate.mk 9 none].foldl imageRow psC9,
       .ok ([ImageUpdate.mk 1 (some "u"), ImageUpdate.mk 9 none].filter fun v =>
              psC9.any fun p => p.id == v.product_id).length) ∧
     importCsv (fun k => k == 1) psC9
        ([CsvRow.mk "A" 3 1] ++ CsvRow.mk "Z" 9 9 :: []) =
      ([CsvRow.mk "A" 3 1].foldl importRow psC9, .error .storeFailure) ∧
     bulkImages (fun k => k == 1) psC9
        ([ImageUpdate.mk 1 (some "u")] ++ ImageUpdate.mk 2 (some "v") :: []) 0 0 =
      ([ImageUpdate.mk 1 (some "u")].foldl imageRow psC9, .error .storeFailure)) :=
  ⟨⟨by decide, by decide, by decide, by decide⟩,
   bulk_per_row psC9 [CsvRow.mk "A" 3 1, CsvRow.mk "Z" 9 9]
     [CsvRow.mk "A" 3 1] [] (CsvRow.mk "Z" 9 9)
     [ImageUpdate.mk 1 (some "u"), ImageUpdate.mk 9 none]
     [ImageUpdate.mk 1 (some "u")] [] (ImageUpdate.mk 2 (some "v"))
     (fun k => k == 1) (fun k => k == 1)
     (by decide) (by decide) (by decide) (by decide)⟩

/-- PATCH /products/:id (both copies): UPDATE products SET image_url =
    $1 WHERE id = $2 RETURNING *, responding 404 when no row matched.
    The handler reads only image_url from the body; an absent field is
    undefined in JS and reaches the store as null (none here). -/
def patchProductImage (ps : List Product) (pid : Nat) (img : Option String) :
    List Product × Bool :=
  (ps.map fun p => if p.id = pid then { p with image_url := img } else p,
   ps.any fun p => p.id == pid)

/-- Claim C10: the patch writes only image_url.  The table keeps its
    length and order; entry i is entry i of the old table, altered only
    in image_url and only when its id matches; products with a
    different id are returned untouched; the matched product carries
    exactly the body value, so a body without image_url overwrites the
    stored value with null; the found flag is true exactly when some
    product has the id. -/
theorem patch_only_image (ps : List Product) (pid : Nat) (img : Option String) :
    ((patchProductImage ps pid img).1.length = ps.length) ∧
    (∀ i : Nat, (patchProductImage ps pid img).1[i]? =
        (ps[i]?).map fun p => if p.id = pid then { p with image_url := img } else p) ∧
    (∀ p ∈ ps, p.id ≠ pid → p ∈ (patchProductImage ps pid img).1) ∧
    (∀ q ∈ (patchProductImage ps pid img).1, q.id = pid → q.image_url = img) ∧
    ((patchProductImage ps pid img).2 = true ↔ ∃ p ∈ ps, p.id = pid) := by
  refine ⟨List.length_map _ _, ?_, ?_, ?_, ?_⟩
  · intro i
    simp [patchProductImage, List.getElem?_map]
  · intro p hp hne
    have hmem : (if p.id = pid then { p with image_url := img } else p) ∈
        ps.map fun q => if q.id = pid then { q with image_url := img } else q :=
      List.mem_map_of_mem _ hp
    rwa [if_neg hne] at hmem
  · intro q hq hqid
    simp only [patchProductImage] at hq
    rcases List.mem_map.mp hq with ⟨p, hp, rfl⟩
    by_cases h : p.id = pid
    · rw [if_pos h]
    · rw [if_neg h] at hqid ⊢
      exact absurd hqid h
  · simp [patchProductImage, List.any_eq_true]

end Inventory
